import Mathlib

/-!
Verification of the scripting integration layer (src/scripting/scripting.c)
of the Open Surge engine: the hierarchical transform/coordinate engine, the
component-resolution protocol, the VM lifecycle manager, the compilation
pipeline, the compatibility guard and the engine-facade cache.

The embedding is shallow: C functions become Lean functions over explicit
state records.  Positions and angles are modelled over `ℚ` (exact arithmetic
standing in for the C floats); a rotation is carried as its angle in degrees
together with the cached cosine/sine pair that the VM library stores, so that
rotation application stays executable.  Recursive parent-chain walks are
written with an explicit fuel parameter; a hypothesis that the ancestor chain
reaches the root within the fuel replaces the C code's implicit termination
assumption (the data model guarantees an acyclic parent chain).
-/

/- ===================== 2D vectors and transforms ===================== -/

/-- A 2D vector (v2d_t) with exact rational coordinates. -/
structure V2 where
  x : ℚ
  y : ℚ
deriving DecidableEq

/-- A surgescript_transform_t restricted to the fields used by scripting.c:
the 2D translation (position.x, position.y), the rotation angle in degrees
(rotation.z) and the cached cosine/sine of that angle that the VM library
maintains for rotation application. -/
structure STransform where
  px : ℚ
  py : ℚ
  rotz : ℚ
  rc : ℚ
  rs : ℚ
deriving DecidableEq

/-- The identity transform: no translation, no rotation (cos 0 = 1, sin 0 = 0). -/
def idTransform : STransform := ⟨0, 0, 0, 1, 0⟩

/-- Modelled from the spec: the embedded VM's forward 2D transform
application (surgescript_transform_apply2d, not part of this repository):
the point is rotated (by the cached cosine/sine of rotation.z) and then
translated. -/
def surgescript_transform_apply2d (t : STransform) (v : V2) : V2 :=
  ⟨t.rc * v.x - t.rs * v.y + t.px, t.rs * v.x + t.rc * v.y + t.py⟩

/-- Modelled from the spec: the embedded VM's inverse 2D transform
application (surgescript_transform_apply2dinverse, not part of this
repository): the exact inverse of the rotate-then-translate forward
transform, i.e. the translation is subtracted and the result is rotated by
the negated angle. -/
def surgescript_transform_apply2dinverse (t : STransform) (v : V2) : V2 :=
  ⟨t.rc * (v.x - t.px) + t.rs * (v.y - t.py),
   -t.rs * (v.x - t.px) + t.rc * (v.y - t.py)⟩

/- ===================== object tree (object manager) ===================== -/

/-- The slice of the VM object manager used by the transform engine: the
designated root handle, the parent link of every handle, every object's
local transform and its transform-changed flag (set by the VM whenever a
writable pointer to the transform is taken). -/
structure Manager where
  root : Nat
  parent : Nat → Nat
  transform : Nat → STransform
  changed : Nat → Bool

/-- Local position of an object: the translation part of its own transform. -/
def localPosition (m : Manager) (h : Nat) : V2 :=
  ⟨(m.transform h).px, (m.transform h).py⟩

/-- Ancestor chain of a handle: the list of handles from the object's parent
up to and including the root, or `none` when the root is not reached within
`fuel` steps. -/
def ancestorChain (m : Manager) : Nat → Nat → Option (List Nat)
  | 0, h => if h = m.root then some [] else none
  | fuel + 1, h =>
      if h = m.root then some []
      else (ancestorChain m fuel (m.parent h)).map (fun l => m.parent h :: l)

/-- One step of the world-position loop body of scripting_util_world_position:
the ancestor's transform is applied only when its transform-changed flag is
set. -/
def chainStep (m : Manager) (q : V2) (a : Nat) : V2 :=
  if m.changed a then surgescript_transform_apply2d (m.transform a) q else q

/-- The while loop of scripting_util_world_position: while the handle is not
the root, move to the parent and (when its transform changed) apply the
parent's transform to the accumulated position. -/
def worldPositionAux (m : Manager) : Nat → Nat → V2 → Option V2
  | 0, h, pos => if h = m.root then some pos else none
  | fuel + 1, h, pos =>
      if h = m.root then some pos
      else worldPositionAux m fuel (m.parent h) (chainStep m pos (m.parent h))

/-- scripting_util_world_position: start from the object's local position and
run the parent-chain loop. -/
def scripting_util_world_position (m : Manager) (fuel h : Nat) : Option V2 :=
  worldPositionAux m fuel h (localPosition m h)

/-- Spec-side world position: the local position composed (rotate then
translate) with the local transform of every listed ancestor, child-to-root. -/
def specWorldPosition (m : Manager) (l : List Nat) (pos : V2) : V2 :=
  l.foldl (fun q a => surgescript_transform_apply2d (m.transform a) q) pos

/-- scripting_util_world_angle: the recursion returns the parent's world
angle (zero when the object is its own parent, the pointer-identity base
case of the C code) plus the object's own rotation. -/
def scripting_util_world_angle (m : Manager) : Nat → Nat → Option ℚ
  | 0, _ => none
  | fuel + 1, h =>
      if m.parent h = h then some (m.transform h).rotz
      else (scripting_util_world_angle m fuel (m.parent h)).map
        (fun parent_angle => parent_angle + (m.transform h).rotz)

/-- Sum of the local rotation angles of a list of handles. -/
def rotSum (m : Manager) (l : List Nat) : ℚ :=
  (l.map (fun a => (m.transform a).rotz)).sum

/-- The position half of world2local (its angle pointer NULL): recurse to
the root first, then, unwinding, apply each ancestor's inverse transform,
so the root's inverse is applied first and the handle's own inverse last. -/
def world2local_position (m : Manager) : Nat → Nat → V2 → Option V2
  | 0, h, pos =>
      if h = m.root then some (surgescript_transform_apply2dinverse (m.transform h) pos)
      else none
  | fuel + 1, h, pos =>
      if h = m.root then some (surgescript_transform_apply2dinverse (m.transform h) pos)
      else (world2local_position m fuel (m.parent h) pos).map
        (fun q => surgescript_transform_apply2dinverse (m.transform h) q)

/-- The angle half of world2local (its position pointer NULL): recurse to
the root first, then, unwinding, subtract each ancestor's rotation. -/
def world2local_angle (m : Manager) : Nat → Nat → ℚ → Option ℚ
  | 0, h, ang =>
      if h = m.root then some (ang - (m.transform h).rotz) else none
  | fuel + 1, h, ang =>
      if h = m.root then some (ang - (m.transform h).rotz)
      else (world2local_angle m fuel (m.parent h) ang).map
        (fun a => a - (m.transform h).rotz)

/-- Write an object's local position through its writable transform pointer;
taking the pointer sets the transform-changed flag. -/
def setLocalPosition (m : Manager) (h : Nat) (p : V2) : Manager :=
  { m with
    transform := fun h' =>
      if h' = h then { m.transform h' with px := p.x, py := p.y } else m.transform h'
    changed := fun h' => if h' = h then true else m.changed h' }

/-- Write an object's local rotation angle through its writable transform
pointer (the direct rotation.z field write of scripting.c); taking the
pointer sets the transform-changed flag. -/
def setLocalRotz (m : Manager) (h : Nat) (z : ℚ) : Manager :=
  { m with
    transform := fun h' =>
      if h' = h then { m.transform h' with rotz := z } else m.transform h'
    changed := fun h' => if h' = h then true else m.changed h' }

/-- scripting_util_set_world_position: unless the object is the root, run
world2local on its parent chain, then store the result as the new local
position. -/
def scripting_util_set_world_position (m : Manager) (fuel h : Nat) (p : V2) :
    Option Manager :=
  if h = m.root then some (setLocalPosition m h p)
  else (world2local_position m fuel (m.parent h) p).map
    (fun q => setLocalPosition m h q)

/-- Truncated integer part of a rational, rounding toward zero, as the C
cast in fmod does. -/
def truncQ (q : ℚ) : ℤ := if 0 ≤ q then ⌊q⌋ else ⌈q⌉

/-- Modelled from the spec: C's fmod (not part of this repository): the
remainder x - y * trunc(x / y), which keeps the sign of x. -/
def cfmod (x y : ℚ) : ℚ := x - y * (truncQ (x / y) : ℚ)

/-- scripting_util_set_world_angle: unless the object is the root, run the
angle half of world2local on its parent chain, then store fmod(angle, 360)
as the new local rotation. -/
def scripting_util_set_world_angle (m : Manager) (fuel h : Nat) (angle : ℚ) :
    Option Manager :=
  if h = m.root then some (setLocalRotz m h (cfmod angle 360))
  else (world2local_angle m fuel (m.parent h) angle).map
    (fun a => setLocalRotz m h (cfmod a 360))

/- ===================== component resolution (C5) ===================== -/

/-- An object as seen by the component-resolution protocol: its type name,
its parent handle and its ordered list of child handles. -/
structure CObject where
  name : String
  parent : Nat
  children : List Nat
deriving DecidableEq

/-- The slice of the object manager used by require_component: the handle
table (handle 0 is the null handle and maps to no object) and the next
handle the manager will hand out on spawn. -/
structure ObjectManager where
  objects : Nat → Option CObject
  nextHandle : Nat

/-- Name of the object behind a handle, when the handle resolves. -/
def objectName (m : ObjectManager) (c : Nat) : Option String :=
  (m.objects c).map CObject.name

/-- surgescript_object_child: the first child of the given object whose name
matches, or the null handle 0 when there is none. -/
def surgescript_object_child (m : ObjectManager) (parentObj : CObject)
    (componentName : String) : Nat :=
  (parentObj.children.find? (fun c => objectName m c == some componentName)).getD 0

/-- surgescript_objectmanager_spawn: allocate the next handle, create the
named object with no children under the given parent, and append the new
handle to the parent's child list. -/
def surgescript_objectmanager_spawn (m : ObjectManager) (parentHandle : Nat)
    (objName : String) : Nat × ObjectManager :=
  let h := m.nextHandle
  (h,
   { objects := fun h' =>
       if h' = h then some ⟨objName, parentHandle, []⟩
       else if h' = parentHandle then
         (m.objects h').map (fun o => { o with children := o.children ++ [h] })
       else m.objects h'
     nextHandle := m.nextHandle + 1 })

/-- scripting_util_require_component: look among the children of the
object's PARENT for one named like the component; spawn a new child of that
name under the parent only when none exists. -/
def scripting_util_require_component (m : ObjectManager) (objectHandle : Nat)
    (componentName : String) : Nat × ObjectManager :=
  match m.objects objectHandle with
  | none => (0, m)
  | some obj =>
    match m.objects obj.parent with
    | none => (0, m)
    | some parentObj =>
      let component := surgescript_object_child m parentObj componentName
      if component = 0 then
        surgescript_objectmanager_spawn m obj.parent componentName
      else (component, m)

/- ===================== VM lifecycle (C6, C7, C8) ===================== -/

/-- The minimum required SurgeScript version declared in scripting.c. -/
def min_surgescript_version : String := "0.5.4"

/-- found_test_script: does the program pool hold the reserved entry point,
function "state:main" on type "Application"? -/
def found_test_script (pool : List (String × String)) : Bool :=
  pool.contains ("Application", "state:main")

/-- The VM-session state owned by the scripting system: the program pool
(a set of (type name, function name) pairs), whether the SurgeEngine
builtins and the default application entry are registered, and how many
times the VM has been launched. -/
structure VMData where
  pool : List (String × String)
  builtins_registered : Bool
  app_registered : Bool
  launch_count : Nat
deriving DecidableEq

/-- The process-wide state of scripting.c: the VM session (none before
scripting_init), the duplicated argument vector, the test-mode flag and the
log sink. -/
structure ScriptingState where
  vm : Option VMData
  vm_argv : Option (List String)
  test_mode : Bool
  log : List String
deriving DecidableEq

/-- The process state before scripting_init runs: no session, no duplicated
argument vector, test mode off. -/
def initialScriptingState : ScriptingState := ⟨none, none, false, []⟩

/-- compile_scripts: compile all enumerated sources into the pool; if the
reserved entry point is now present, log and set test mode, otherwise
register the default application entry and clear test mode. -/
def compile_scripts (sources : List (String × String)) (vm : VMData)
    (s : ScriptingState) : VMData × ScriptingState :=
  let vm1 := { vm with pool := vm.pool ++ sources }
  if found_test_script vm1.pool then
    (vm1, { s with test_mode := true, log := s.log ++ ["Got a test script..."] })
  else
    ({ vm1 with app_registered := true }, { s with test_mode := false })

/-- check_if_compatible: true exactly when the runtime version code is below
the version code of the declared minimum, in which case fatal_error fires. -/
def check_if_compatible (versioncode : String → Nat) (current_version : Nat) :
    Bool :=
  current_version < versioncode min_surgescript_version

/-- scripting_init: run the compatibility guard first; on failure terminate
fatally with the pristine process state (the error value carries the state
observed at termination).  Otherwise create the VM, duplicate argv, register
builtins, compile scripts and launch. -/
def scripting_init (versioncode : String → Nat) (current_version : Nat)
    (argv : List String) (sources : List (String × String)) :
    Except ScriptingState ScriptingState :=
  if check_if_compatible versioncode current_version then
    .error initialScriptingState
  else
    let vm : VMData := ⟨[], false, false, 0⟩
    let s : ScriptingState := { initialScriptingState with vm := some vm }
    let s := { s with vm_argv := some argv }
    let vm := { vm with builtins_registered := true }
    let cs := compile_scripts sources vm s
    let vm := { cs.1 with launch_count := cs.1.launch_count + 1 }
    .ok { cs.2 with vm := some vm }

/-- scripting_reload: log, reset the VM session (the reset collaborator may
mutate the session and reports success); on failure log and return without
registering builtins, recompiling or relaunching.  On success re-register
builtins, recompile and relaunch with the retained argument vector. -/
def scripting_reload (reset : VMData → Bool × VMData)
    (sources : List (String × String)) (s : ScriptingState) : ScriptingState :=
  match s.vm with
  | none => s
  | some vmdata =>
    let s1 := { s with log := s.log ++ ["Reloading scripts..."] }
    match reset vmdata with
    | (false, vm) =>
        { s1 with vm := some vm, log := s1.log ++ ["Failed to reload the scripts"] }
    | (true, vm) =>
        let vm := { vm with builtins_registered := true }
        let cs := compile_scripts sources vm s1
        let vm2 := { cs.1 with launch_count := cs.1.launch_count + 1 }
        { cs.2 with vm := some vm2, log := cs.2.log ++ ["The scripts have been reloaded!"] }

/- ===================== compilation flags (C9) ===================== -/

/-- Parser flags: only the skip-duplicate-definitions bit matters here. -/
structure ParserFlags where
  skip_duplicates : Bool
deriving DecidableEq

/-- SSPARSER_DEFAULTS: full duplicate checking. -/
def SSPARSER_DEFAULTS : ParserFlags := ⟨false⟩

/-- An enumerated script source: its path and whether the asset filesystem
reports it as a primary (non-overridden) file. -/
structure ScriptFile where
  path : String
  primary : Bool
deriving DecidableEq

/-- The parser state threaded through the compilation pipeline. -/
structure ParserState where
  flags : ParserFlags
deriving DecidableEq

/-- Record of one compilation: which file was compiled and with which parser
flags the compiler ran. -/
structure CompileEvent where
  path : String
  flagsUsed : ParserFlags
deriving DecidableEq

/-- compile_script: select flags (skip duplicates exactly for non-primary
files), set them on the parser, compile with the parser's current flags,
then restore SSPARSER_DEFAULTS. -/
def compile_script (f : ScriptFile) (p : ParserState) :
    ParserState × CompileEvent :=
  let flags := if f.primary then SSPARSER_DEFAULTS
               else { SSPARSER_DEFAULTS with skip_duplicates := true }
  let p1 := { p with flags := flags }
  let ev : CompileEvent := ⟨f.path, p1.flags⟩
  ({ p1 with flags := SSPARSER_DEFAULTS }, ev)

/-- The assetfs_foreach_file loop of compile_scripts: feed every enumerated
source to compile_script, collecting the compile events in order. -/
def compile_all (files : List ScriptFile) (p : ParserState) :
    ParserState × List CompileEvent :=
  match files with
  | [] => (p, [])
  | f :: fs =>
    let r1 := compile_script f p
    let r2 := compile_all fs r1.1
    (r2.1, r1.2 :: r2.2)

/- ===================== engine-facade cache (C10) ===================== -/

/-- The state around scripting_util_surgeengine_object: the function-local
static cached_ref (0 when unset, surviving for the whole process) and the
current session's plugin-object resolution. -/
structure EngineCache where
  cached_ref : Nat
  plugin : String → Nat

/-- scripting_util_surgeengine_object: when the static cached_ref is unset
(zero), resolve the SurgeEngine plugin object and store its handle; in every
other case return the cached handle without resolving. -/
def scripting_util_surgeengine_object (s : EngineCache) : Nat × EngineCache :=
  if s.cached_ref = 0 then
    let h := s.plugin "SurgeEngine"
    (h, { s with cached_ref := h })
  else (s.cached_ref, s)

/- ===================== concrete states for witnesses ===================== -/

/-- A three-object chain 0 (root) - 1 - 2 whose middle object carries a 90
degree rotation and a translation, and whose root is unchanged (identity
transform, changed flag clear). -/
def mgrA : Manager where
  root := 0
  parent := fun h => h - 1
  transform := fun h =>
    if h = 0 then idTransform
    else if h = 1 then ⟨5, -3, 90, 0, 1⟩
    else ⟨1, 2, 0, 1, 0⟩
  changed := fun h => h == 1

/-- A tree consisting only of a root (its own parent) with identity
transform. -/
def mgrC : Manager where
  root := 0
  parent := fun _ => 0
  transform := fun _ => idTransform
  changed := fun _ => false

/-- A tree consisting only of a root (its own parent) whose local rotation
is 10 degrees. -/
def mgrD : Manager where
  root := 0
  parent := fun _ => 0
  transform := fun _ => ⟨0, 0, 10, 1, 0⟩
  changed := fun _ => true

/-- A two-object manager: root 1 (its own parent) with single child 2 named
"Player"; the next handle to be handed out is 3. -/
def mgrE : ObjectManager where
  objects := fun h =>
    if h = 1 then some ⟨"Root", 1, [2]⟩
    else if h = 2 then some ⟨"Player", 1, []⟩
    else none
  nextHandle := 3

/-- A version-code table under which the declared minimum maps to 504. -/
def vcW : String → Nat := fun _ => 504

/- ===================== helper lemmas: transform engine ===================== -/

lemma apply2d_idTransform (v : V2) :
    surgescript_transform_apply2d idTransform v = v := by
  cases v
  simp [surgescript_transform_apply2d, idTransform]

lemma apply2d_apply2dinverse (t : STransform) (v : V2)
    (h : t.rc ^ 2 + t.rs ^ 2 = 1) :
    surgescript_transform_apply2d t (surgescript_transform_apply2dinverse t v) = v := by
  cases v with
  | mk vx vy =>
    simp only [surgescript_transform_apply2d, surgescript_transform_apply2dinverse,
      V2.mk.injEq]
    constructor
    · linear_combination (vx - t.px) * h
    · linear_combination (vy - t.py) * h

lemma ancestorChain_root (m : Manager) (fuel : Nat) :
    ancestorChain m fuel m.root = some [] := by
  cases fuel <;> simp [ancestorChain]

lemma ancestorChain_root_eq_nil (m : Manager) (fuel : Nat) (l : List Nat)
    (h : ancestorChain m fuel m.root = some l) : l = [] := by
  rw [ancestorChain_root] at h
  exact (Option.some.inj h).symm

lemma worldPositionAux_root (m : Manager) (fuel : Nat) (pos : V2) :
    worldPositionAux m fuel m.root pos = some pos := by
  cases fuel <;> simp [worldPositionAux]

lemma worldPositionAux_of_chain (m : Manager) :
    ∀ (fuel h : Nat) (l : List Nat) (pos : V2),
      ancestorChain m fuel h = some l →
      worldPositionAux m fuel h pos = some (l.foldl (chainStep m) pos) := by
  intro fuel
  induction fuel with
  | zero =>
    intro h l pos hc
    by_cases hr : h = m.root
    · simp only [ancestorChain, if_pos hr] at hc
      cases Option.some.inj hc
      simp [worldPositionAux, hr]
    · simp [ancestorChain, if_neg hr] at hc
  | succ fuel ih =>
    intro h l pos hc
    by_cases hr : h = m.root
    · subst hr
      have := ancestorChain_root_eq_nil m _ l hc
      subst this
      simp [worldPositionAux]
    · simp only [ancestorChain, if_neg hr, Option.map_eq_some'] at hc
      obtain ⟨l', hc', rfl⟩ := hc
      simp only [worldPositionAux, if_neg hr, List.foldl_cons]
      exact ih (m.parent h) l' (chainStep m pos (m.parent h)) hc'

lemma foldl_chainStep_eq_spec (m : Manager) :
    ∀ (l : List Nat) (pos : V2),
      (∀ a ∈ l, m.changed a = false → m.transform a = idTransform) →
      l.foldl (chainStep m) pos = specWorldPosition m l pos := by
  intro l
  induction l with
  | nil => intro pos _; rfl
  | cons a l ih =>
    intro pos hid
    simp only [List.foldl_cons, specWorldPosition] at *
    have hstep : chainStep m pos a = surgescript_transform_apply2d (m.transform a) pos := by
      by_cases hch : m.changed a
      · simp [chainStep, hch]
      · have hida := hid a (by simp) (by simpa using hch)
        simp [chainStep, hch, hida, apply2d_idTransform]
    rw [hstep]
    exact ih _ (fun b hb => hid b (by simp [hb]))

lemma world2local_position_of_chain (m : Manager) :
    ∀ (fuel h : Nat) (l : List Nat) (P : V2),
      ancestorChain m fuel h = some l → h ≠ m.root →
      world2local_position m fuel (m.parent h) P =
        some (l.foldr (fun a q => surgescript_transform_apply2dinverse (m.transform a) q) P) := by
  intro fuel
  induction fuel with
  | zero =>
    intro h l P hc hr
    simp [ancestorChain, if_neg hr] at hc
  | succ fuel ih =>
    intro h l P hc hr
    simp only [ancestorChain, if_neg hr, Option.map_eq_some'] at hc
    obtain ⟨l', hc', rfl⟩ := hc
    by_cases hpr : m.parent h = m.root
    · rw [hpr] at hc'
      have := ancestorChain_root_eq_nil m fuel l' hc'
      subst this
      simp [world2local_position, hpr]
    · have hrec := ih (m.parent h) l' P hc' hpr
      simp [world2local_position, if_neg hpr, hrec]

lemma spec_foldr_inverse_cancel (m : Manager) :
    ∀ (l : List Nat) (P : V2),
      (∀ a ∈ l, (m.transform a).rc ^ 2 + (m.transform a).rs ^ 2 = 1) →
      specWorldPosition m l
        (l.foldr (fun a q => surgescript_transform_apply2dinverse (m.transform a) q) P) = P := by
  intro l
  induction l with
  | nil => intro P _; rfl
  | cons a l ih =>
    intro P hunit
    simp only [List.foldr_cons, specWorldPosition, List.foldl_cons]
    rw [apply2d_apply2dinverse _ _ (hunit a (by simp))]
    simpa [specWorldPosition] using ih P (fun b hb => hunit b (by simp [hb]))

lemma ancestorChain_congr (m m' : Manager) (hp : m'.parent = m.parent)
    (hr : m'.root = m.root) :
    ∀ (fuel h : Nat), ancestorChain m' fuel h = ancestorChain m fuel h := by
  intro fuel
  induction fuel with
  | zero => intro h; simp [ancestorChain, hp, hr]
  | succ fuel ih => intro h; simp [ancestorChain, hp, hr, ih]

lemma foldl_chainStep_congr (m m' : Manager) :
    ∀ (l : List Nat) (pos : V2),
      (∀ a ∈ l, m'.transform a = m.transform a ∧ m'.changed a = m.changed a) →
      l.foldl (chainStep m') pos = l.foldl (chainStep m) pos := by
  intro l
  induction l with
  | nil => intro pos _; rfl
  | cons a l ih =>
    intro pos hmem
    obtain ⟨ht, hch⟩ := hmem a (by simp)
    simp only [List.foldl_cons]
    rw [show chainStep m' pos a = chainStep m pos a by simp [chainStep, ht, hch]]
    exact ih _ (fun b hb => hmem b (by simp [hb]))

/- ===================== C1 ===================== -/

/-- Claim C1: for every object in the session's tree whose ancestor chain
reaches the root, the world position query returns the object's local
position composed (rotate then translate) with the local transform of every
ancestor from its parent up to and including the root, applied child-to-root
(an ancestor whose transform-changed flag is clear still carries the
identity transform, so skipping it does not change the value); for the root
itself the result is its local position. -/
theorem world_position_eq_ancestor_composition
    (m : Manager) (fuel h : Nat) (l : List Nat)
    (hchain : ancestorChain m fuel h = some l)
    (hid : ∀ a ∈ l, m.changed a = false → m.transform a = idTransform) :
    scripting_util_world_position m fuel h =
      some (specWorldPosition m l (localPosition m h)) ∧
    (h = m.root → scripting_util_world_position m fuel h = some (localPosition m h)) := by
  have hmain : scripting_util_world_position m fuel h =
      some (l.foldl (chainStep m) (localPosition m h)) :=
    worldPositionAux_of_chain m fuel h l (localPosition m h) hchain
  constructor
  · rw [hmain, foldl_chainStep_eq_spec m l (localPosition m h) hid]
  · intro hr
    subst hr
    have := ancestorChain_root_eq_nil m fuel l hchain
    subst this
    simpa using hmain

/-- Witness for C1 on a concrete three-object chain with a rotated middle
ancestor and an unchanged identity root. -/
theorem world_position_eq_ancestor_composition_witness :
    ancestorChain mgrA 2 2 = some [1, 0] ∧
    (∀ a ∈ [1, 0], mgrA.changed a = false → mgrA.transform a = idTransform) ∧
    (scripting_util_world_position mgrA 2 2 =
       some (specWorldPosition mgrA [1, 0] (localPosition mgrA 2)) ∧
     (2 = mgrA.root → scripting_util_world_position mgrA 2 2 =
       some (localPosition mgrA 2))) :=
  ⟨by decide, by intro a ha; fin_cases ha <;> simp [mgrA, idTransform],
   world_position_eq_ancestor_composition mgrA 2 2 [1, 0] (by decide)
     (by intro a ha; fin_cases ha <;> simp [mgrA, idTransform])⟩

/- ===================== C2 ===================== -/

/-- Claim C2: teleport round-trip.  Setting a world position and querying it
back returns the target, for any depth and any ancestor transforms whose
cached cosine/sine pairs are unit vectors (as the cosine/sine of the
rotation angle always are). -/
theorem set_world_position_roundtrip
    (m : Manager) (fuel h : Nat) (l : List Nat) (P : V2)
    (hchain : ancestorChain m fuel h = some l)
    (hunit : ∀ a ∈ l, (m.transform a).rc ^ 2 + (m.transform a).rs ^ 2 = 1)
    (hid : ∀ a ∈ l, m.changed a = false → m.transform a = idTransform)
    (hnotin : h ∉ l) :
    ∃ m', scripting_util_set_world_position m fuel h P = some m' ∧
      scripting_util_world_position m' fuel h = some P := by
  by_cases hr : h = m.root
  · subst hr
    refine ⟨setLocalPosition m m.root P,
      by simp [scripting_util_set_world_position], ?_⟩
    have hloc : localPosition (setLocalPosition m m.root P) m.root = P := by
      cases P
      simp [localPosition, setLocalPosition]
    have hwr : scripting_util_world_position (setLocalPosition m m.root P) fuel m.root =
        some (localPosition (setLocalPosition m m.root P) m.root) :=
      worldPositionAux_root (setLocalPosition m m.root P) fuel _
    rw [hwr, hloc]
  · obtain ⟨L, hL⟩ : ∃ L,
        l.foldr (fun a q => surgescript_transform_apply2dinverse (m.transform a) q) P = L :=
      ⟨_, rfl⟩
    have hw2l := world2local_position_of_chain m fuel h l P hchain hr
    rw [hL] at hw2l
    refine ⟨setLocalPosition m h L, ?_, ?_⟩
    · simp [scripting_util_set_world_position, if_neg hr, hw2l]
    · have hchain' : ancestorChain (setLocalPosition m h L) fuel h = some l := by
        rw [ancestorChain_congr m (setLocalPosition m h L) rfl rfl fuel h]
        exact hchain
      have hwp : scripting_util_world_position (setLocalPosition m h L) fuel h =
          some (l.foldl (chainStep (setLocalPosition m h L))
            (localPosition (setLocalPosition m h L) h)) :=
        worldPositionAux_of_chain _ fuel h l _ hchain'
      have hloc : localPosition (setLocalPosition m h L) h = L := by
        cases L
        simp [localPosition, setLocalPosition]
      have hmem : ∀ a ∈ l, (setLocalPosition m h L).transform a = m.transform a ∧
          (setLocalPosition m h L).changed a = m.changed a := by
        intro a ha
        have hne : a ≠ h := fun e => hnotin (e ▸ ha)
        simp [setLocalPosition, hne]
      rw [hwp, hloc, foldl_chainStep_congr m (setLocalPosition m h L) l L hmem,
        foldl_chainStep_eq_spec m l L hid, ← hL,
        spec_foldr_inverse_cancel m l P hunit]

/-- Witness for C2: a teleport to (7, 9) of the deepest object of the
concrete chain round-trips exactly. -/
theorem set_world_position_roundtrip_witness :
    ancestorChain mgrA 2 2 = some [1, 0] ∧
    (∀ a ∈ [1, 0], (mgrA.transform a).rc ^ 2 + (mgrA.transform a).rs ^ 2 = 1) ∧
    (∀ a ∈ [1, 0], mgrA.changed a = false → mgrA.transform a = idTransform) ∧
    (2 : Nat) ∉ [1, 0] ∧
    (∃ m', scripting_util_set_world_position mgrA 2 2 ⟨7, 9⟩ = some m' ∧
       scripting_util_world_position m' 2 2 = some ⟨7, 9⟩) :=
  ⟨by decide, by intro a ha; fin_cases ha <;> norm_num [mgrA, idTransform],
   by intro a ha; fin_cases ha <;> simp [mgrA, idTransform], by decide,
   set_world_position_roundtrip mgrA 2 2 [1, 0] ⟨7, 9⟩ (by decide)
     (by intro a ha; fin_cases ha <;> norm_num [mgrA, idTransform])
     (by intro a ha; fin_cases ha <;> simp [mgrA, idTransform]) (by decide)⟩

/- ===================== helper lemmas: angles ===================== -/

lemma rotSum_cons (m : Manager) (a : Nat) (l : List Nat) :
    rotSum m (a :: l) = (m.transform a).rotz + rotSum m l := by
  simp [rotSum]

lemma rotSum_congr (m m' : Manager) :
    ∀ l : List Nat, (∀ a ∈ l, m'.transform a = m.transform a) →
      rotSum m' l = rotSum m l := by
  intro l
  induction l with
  | nil => intro _; rfl
  | cons a l ih =>
    intro hmem
    rw [rotSum_cons, rotSum_cons, hmem a (by simp),
      ih (fun b hb => hmem b (by simp [hb]))]

lemma cfmod_bounds (x : ℚ) : -360 < cfmod x 360 ∧ cfmod x 360 < 360 := by
  have hx : 360 * (x / 360) = x := by
    field_simp
  unfold cfmod truncQ
  by_cases hq : 0 ≤ x / 360
  · rw [if_pos hq]
    have h1 : ((⌊x / 360⌋ : ℤ) : ℚ) ≤ x / 360 := Int.floor_le _
    have h2 : x / 360 < ⌊x / 360⌋ + 1 := Int.lt_floor_add_one _
    constructor <;> nlinarith
  · rw [if_neg hq]
    have h1 : x / 360 ≤ ((⌈x / 360⌉ : ℤ) : ℚ) := Int.le_ceil _
    have h2 : ((⌈x / 360⌉ : ℤ) : ℚ) < x / 360 + 1 := Int.ceil_lt_add_one _
    constructor <;> nlinarith

lemma world2local_angle_of_chain (m : Manager) :
    ∀ (fuel h : Nat) (l : List Nat) (A : ℚ),
      ancestorChain m fuel h = some l → h ≠ m.root →
      world2local_angle m fuel (m.parent h) A = some (A - rotSum m l) := by
  intro fuel
  induction fuel with
  | zero =>
    intro h l A hc hr
    simp [ancestorChain, if_neg hr] at hc
  | succ fuel ih =>
    intro h l A hc hr
    simp only [ancestorChain, if_neg hr, Option.map_eq_some'] at hc
    obtain ⟨l', hc', rfl⟩ := hc
    by_cases hpr : m.parent h = m.root
    · rw [hpr] at hc'
      have := ancestorChain_root_eq_nil m fuel l' hc'
      subst this
      simp [world2local_angle, hpr, rotSum_cons, rotSum]
    · have hrec := ih (m.parent h) l' A hc' hpr
      simp only [world2local_angle, if_neg hpr, hrec, Option.map_some',
        Option.some.injEq, rotSum_cons]
      ring

lemma world_angle_of_chain (m : Manager) :
    ∀ (fuel h : Nat) (l : List Nat),
      ancestorChain m fuel h = some l →
      m.parent m.root = m.root →
      (∀ a ∈ h :: l, a ≠ m.root → m.parent a ≠ a) →
      scripting_util_world_angle m (fuel + 1) h =
        some ((m.transform h).rotz + rotSum m l) := by
  intro fuel
  induction fuel with
  | zero =>
    intro h l hc hroot hself
    by_cases hr : h = m.root
    · subst hr
      have := ancestorChain_root_eq_nil m 0 l hc
      subst this
      simp [scripting_util_world_angle, hroot, rotSum]
    · simp [ancestorChain, if_neg hr] at hc
  | succ fuel ih =>
    intro h l hc hroot hself
    by_cases hr : h = m.root
    · subst hr
      have := ancestorChain_root_eq_nil m _ l hc
      subst this
      simp [scripting_util_world_angle, hroot, rotSum]
    · simp only [ancestorChain, if_neg hr, Option.map_eq_some'] at hc
      obtain ⟨l', hc', rfl⟩ := hc
      have hpne : m.parent h ≠ h := hself h (by simp) hr
      have hs : ∀ a ∈ m.parent h :: l', a ≠ m.root → m.parent a ≠ a := by
        intro a ha hane
        exact hself a (List.mem_cons_of_mem h ha) hane
      have ihh := ih (m.parent h) l' hc' hroot hs
      rw [show scripting_util_world_angle m (fuel + 1 + 1) h =
          (if m.parent h = h then some (m.transform h).rotz
           else (scripting_util_world_angle m (fuel + 1) (m.parent h)).map
             (fun parent_angle => parent_angle + (m.transform h).rotz)) from rfl]
      rw [if_neg hpne, ihh, Option.map_some', Option.some.injEq, rotSum_cons]
      ring

/- ===================== C3 ===================== -/

/-- Claim C3 counterexample: set_world_angle with a negative angle on a
bare root stores -90, which is not in the claimed normalized range [0, 360),
and the subsequent world angle query returns -90, not the normalized 270. -/
theorem set_world_angle_negative_counterexample :
    (scripting_util_set_world_angle mgrC 1 0 (-90)).map
      (fun m' => (m'.transform 0).rotz) = some (-90) ∧
    (scripting_util_set_world_angle mgrC 1 0 (-90)).bind
      (fun m' => scripting_util_world_angle m' 2 0) = some (-90) ∧
    ¬ (0 : ℚ) ≤ -90 ∧ (-90 : ℚ) ≠ 270 := by
  refine ⟨?_, ?_, by norm_num, by norm_num⟩
  · norm_num [scripting_util_set_world_angle, mgrC, setLocalRotz, cfmod, truncQ]
  · norm_num [scripting_util_set_world_angle, scripting_util_world_angle, mgrC,
      setLocalRotz, cfmod, truncQ]

/-- Claim C3 amended: after set_world_angle(O, A) the stored local rotation
is the C fmod of (A minus the ancestors' rotation sum) by 360 - a value in
the open interval (-360, 360) that keeps the sign of its argument rather
than being normalized into [0, 360) - and the subsequent world angle query
returns a value congruent to A modulo 360 rather than A normalized into
[0, 360). -/
theorem set_world_angle_congruence
    (m : Manager) (fuel h : Nat) (l : List Nat) (A : ℚ)
    (hchain : ancestorChain m fuel h = some l)
    (hroot : m.parent m.root = m.root)
    (hself : ∀ a ∈ h :: l, a ≠ m.root → m.parent a ≠ a)
    (hnotin : h ∉ l) :
    ∃ m', scripting_util_set_world_angle m fuel h A = some m' ∧
      (m'.transform h).rotz = cfmod (A - rotSum m l) 360 ∧
      (-360 < (m'.transform h).rotz ∧ (m'.transform h).rotz < 360) ∧
      ∃ k : ℤ, scripting_util_world_angle m' (fuel + 1) h = some (A - 360 * k) := by
  have hset : scripting_util_set_world_angle m fuel h A =
      some (setLocalRotz m h (cfmod (A - rotSum m l) 360)) := by
    by_cases hr : h = m.root
    · subst hr
      have := ancestorChain_root_eq_nil m fuel l hchain
      subst this
      simp [scripting_util_set_world_angle, rotSum]
    · rw [scripting_util_set_world_angle, if_neg hr,
        world2local_angle_of_chain m fuel h l A hchain hr, Option.map_some']
  refine ⟨setLocalRotz m h (cfmod (A - rotSum m l) 360), hset, ?_, ?_, ?_⟩
  · simp [setLocalRotz]
  · have hb := cfmod_bounds (A - rotSum m l)
    have hz : ((setLocalRotz m h (cfmod (A - rotSum m l) 360)).transform h).rotz =
        cfmod (A - rotSum m l) 360 := by simp [setLocalRotz]
    rw [hz]
    exact hb
  · refine ⟨truncQ ((A - rotSum m l) / 360), ?_⟩
    have hchain' : ancestorChain (setLocalRotz m h (cfmod (A - rotSum m l) 360)) fuel h =
        some l := by
      rw [ancestorChain_congr m (setLocalRotz m h (cfmod (A - rotSum m l) 360)) rfl rfl fuel h]
      exact hchain
    have hself' : ∀ a ∈ h :: l,
        a ≠ (setLocalRotz m h (cfmod (A - rotSum m l) 360)).root →
        (setLocalRotz m h (cfmod (A - rotSum m l) 360)).parent a ≠ a := hself
    have hroot' : (setLocalRotz m h (cfmod (A - rotSum m l) 360)).parent
        (setLocalRotz m h (cfmod (A - rotSum m l) 360)).root =
        (setLocalRotz m h (cfmod (A - rotSum m l) 360)).root := hroot
    have hwa := world_angle_of_chain (setLocalRotz m h (cfmod (A - rotSum m l) 360))
      fuel h l hchain' hroot' hself'
    rw [hwa]
    have hzz : ((setLocalRotz m h (cfmod (A - rotSum m l) 360)).transform h).rotz =
        cfmod (A - rotSum m l) 360 := by simp [setLocalRotz]
    have hsum : rotSum (setLocalRotz m h (cfmod (A - rotSum m l) 360)) l = rotSum m l := by
      refine rotSum_congr m _ l ?_
      intro a ha
      have hne : a ≠ h := fun e => hnotin (e ▸ ha)
      simp [setLocalRotz, hne]
    rw [hzz, hsum, Option.some.injEq, cfmod]
    ring

/-- Witness for the amended C3 on the concrete chain: setting world angle
500 on the deepest object of a chain whose ancestors sum to 90 degrees. -/
theorem set_world_angle_congruence_witness :
    ancestorChain mgrA 2 2 = some [1, 0] ∧
    mgrA.parent mgrA.root = mgrA.root ∧
    (∀ a ∈ [2, 1, 0], a ≠ mgrA.root → mgrA.parent a ≠ a) ∧
    (2 : Nat) ∉ [1, 0] ∧
    (∃ m', scripting_util_set_world_angle mgrA 2 2 500 = some m' ∧
       (m'.transform 2).rotz = cfmod (500 - rotSum mgrA [1, 0]) 360 ∧
       (-360 < (m'.transform 2).rotz ∧ (m'.transform 2).rotz < 360) ∧
       ∃ k : ℤ, scripting_util_world_angle m' 3 2 = some (500 - 360 * (k : ℚ))) :=
  ⟨by decide, by decide, by decide, by decide,
   set_world_angle_congruence mgrA 2 2 [1, 0] 500 (by decide) (by decide)
     (by decide) (by decide)⟩

/- ===================== C4 ===================== -/

/-- Claim C4 counterexample: on a tree whose root carries a 10 degree local
rotation, the world angle of the root is 10, not the 0 the claim's
"the root itself contributes zero to the sum" predicts. -/
theorem world_angle_root_rotation_counterexample :
    scripting_util_world_angle mgrD 1 0 = some 10 ∧ (10 : ℚ) ≠ 0 := by
  constructor
  · norm_num [scripting_util_world_angle, mgrD]
  · norm_num

/-- Claim C4 amended: the world angle query returns the sum of the local
rotations along the chain from the object up to AND INCLUDING the root (the
root's own rotation is part of the sum); the recursion's base case is the
self-parented object, which under the tree invariants is exactly the
designated root. -/
theorem world_angle_eq_chain_sum
    (m : Manager) (fuel h : Nat) (l : List Nat)
    (hchain : ancestorChain m fuel h = some l)
    (hroot : m.parent m.root = m.root)
    (hself : ∀ a ∈ h :: l, a ≠ m.root → m.parent a ≠ a) :
    scripting_util_world_angle m (fuel + 1) h =
      some ((m.transform h).rotz + rotSum m l) :=
  world_angle_of_chain m fuel h l hchain hroot hself

/-- Witness for the amended C4 on the concrete chain: the deepest object's
world angle is the sum of its own rotation and both ancestors' rotations. -/
theorem world_angle_eq_chain_sum_witness :
    ancestorChain mgrA 2 2 = some [1, 0] ∧
    mgrA.parent mgrA.root = mgrA.root ∧
    (∀ a ∈ [2, 1, 0], a ≠ mgrA.root → mgrA.parent a ≠ a) ∧
    scripting_util_world_angle mgrA 3 2 =
      some ((mgrA.transform 2).rotz + rotSum mgrA [1, 0]) :=
  ⟨by decide, by decide, by decide,
   world_angle_eq_chain_sum mgrA 2 2 [1, 0] (by decide) (by decide) (by decide)⟩

/- ===================== helper lemmas: component lookup ===================== -/

lemma find?_congr {α : Type} (p q : α → Bool) :
    ∀ l : List α, (∀ c ∈ l, p c = q c) → l.find? p = l.find? q := by
  intro l
  induction l with
  | nil => intro _; rfl
  | cons a l ih =>
    intro h
    cases hpa : p a with
    | true =>
      rw [List.find?_cons_of_pos _ hpa,
        List.find?_cons_of_pos _ (by rw [← h a (by simp)]; exact hpa)]
    | false =>
      rw [List.find?_cons_of_neg _ (by simp [hpa]),
        List.find?_cons_of_neg _ (by simp [← h a (by simp), hpa])]
      exact ih (fun c hc => h c (by simp [hc]))

lemma find?_append_of_none {α : Type} (p : α → Bool) :
    ∀ (l1 l2 : List α), l1.find? p = none → (l1 ++ l2).find? p = l2.find? p := by
  intro l1
  induction l1 with
  | nil => intro l2 _; rfl
  | cons a l ih =>
    intro l2 hn
    cases hpa : p a with
    | true => rw [List.find?_cons_of_pos _ hpa] at hn; cases hn
    | false =>
      have hn' : l.find? p = none := by
        rwa [List.find?_cons_of_neg _ (by simp [hpa])] at hn
      rw [List.cons_append, List.find?_cons_of_neg _ (by simp [hpa])]
      exact ih l2 hn'

/- ===================== C5 ===================== -/

/-- Claim C5: require_component searches the parent's children for one with
the component's name and spawns a new child under the parent only when none
exists; two consecutive invocations return the identical handle, the second
one mutates nothing, and the parent's child collection gains exactly one new
member across both calls when the component was initially absent (and none
when it was already present). -/
theorem require_component_idempotent
    (m : ObjectManager) (objectHandle : Nat) (componentName : String)
    (obj parentObj : CObject)
    (hobj : m.objects objectHandle = some obj)
    (hpar : m.objects obj.parent = some parentObj)
    (h0 : m.objects 0 = none)
    (hnz : m.nextHandle ≠ 0)
    (hfo : objectHandle ≠ m.nextHandle)
    (hfp : obj.parent ≠ m.nextHandle)
    (hfc : m.nextHandle ∉ parentObj.children) :
    (scripting_util_require_component m objectHandle componentName).1 =
      (scripting_util_require_component
        (scripting_util_require_component m objectHandle componentName).2
        objectHandle componentName).1 ∧
    (scripting_util_require_component
        (scripting_util_require_component m objectHandle componentName).2
        objectHandle componentName).2 =
      (scripting_util_require_component m objectHandle componentName).2 ∧
    ∃ parentObj2,
      (scripting_util_require_component
          (scripting_util_require_component m objectHandle componentName).2
          objectHandle componentName).2.objects obj.parent = some parentObj2 ∧
      parentObj2.children.length = parentObj.children.length +
        (if surgescript_object_child m parentObj componentName = 0 then 1 else 0) := by
  by_cases hc : surgescript_object_child m parentObj componentName = 0
  · -- the component is initially absent: the first call spawns it
    have hF1 : (surgescript_objectmanager_spawn m obj.parent componentName).2.objects
        m.nextHandle = some ⟨componentName, obj.parent, []⟩ := by
      simp [surgescript_objectmanager_spawn]
    have hF2 : (surgescript_objectmanager_spawn m obj.parent componentName).2.objects
        obj.parent =
        some { parentObj with children := parentObj.children ++ [m.nextHandle] } := by
      simp [surgescript_objectmanager_spawn, hfp, hpar]
    obtain ⟨obj2, hobj2, hobj2par⟩ : ∃ o,
        (surgescript_objectmanager_spawn m obj.parent componentName).2.objects
          objectHandle = some o ∧ o.parent = obj.parent := by
      by_cases hop : objectHandle = obj.parent
      · have hobjeq : obj = parentObj := by
          rw [hop] at hobj
          exact Option.some.inj (hobj.symm.trans hpar)
        refine ⟨{ parentObj with children := parentObj.children ++ [m.nextHandle] }, ?_, ?_⟩
        · rw [hop]; exact hF2
        · rw [← hobjeq]
      · exact ⟨obj, by simp [surgescript_objectmanager_spawn, hfo, hop, hobj], rfl⟩
    have hF4 : ∀ c, c ≠ m.nextHandle →
        objectName (surgescript_objectmanager_spawn m obj.parent componentName).2 c =
        objectName m c := by
      intro c hcn
      by_cases hcp : c = obj.parent
      · subst hcp
        simp [objectName, hF2, hpar]
      · simp [objectName, surgescript_objectmanager_spawn, hcn, hcp]
    have hfindm : parentObj.children.find?
        (fun c => objectName m c == some componentName) = none := by
      cases hfind : parentObj.children.find?
          (fun c => objectName m c == some componentName) with
      | none => rfl
      | some c =>
        have hpc := List.find?_some hfind
        unfold surgescript_object_child at hc
        rw [hfind] at hc
        simp only [Option.getD_some] at hc
        subst hc
        simp [objectName, h0] at hpc
    have hfind1 : parentObj.children.find?
        (fun c => objectName (surgescript_objectmanager_spawn m obj.parent componentName).2 c
          == some componentName) = none := by
      rw [find?_congr _ (fun c => objectName m c == some componentName) parentObj.children
        (fun c hcmem => by rw [hF4 c (fun e => hfc (e ▸ hcmem))])]
      exact hfindm
    have hchild1 : surgescript_object_child
        (surgescript_objectmanager_spawn m obj.parent componentName).2
        { parentObj with children := parentObj.children ++ [m.nextHandle] }
        componentName = m.nextHandle := by
      unfold surgescript_object_child
      simp only []
      rw [find?_append_of_none _ _ _ hfind1,
        List.find?_cons_of_pos _ (by simp [objectName, hF1])]
      rfl
    have hr1 : scripting_util_require_component m objectHandle componentName =
        (m.nextHandle, (surgescript_objectmanager_spawn m obj.parent componentName).2) := by
      simp [scripting_util_require_component, hobj, hpar, hc, surgescript_objectmanager_spawn]
    have hr2 : scripting_util_require_component
        (surgescript_objectmanager_spawn m obj.parent componentName).2
        objectHandle componentName =
        (m.nextHandle, (surgescript_objectmanager_spawn m obj.parent componentName).2) := by
      simp only [scripting_util_require_component, hobj2, hobj2par, hF2, hchild1]
      rw [if_neg hnz]
    refine ⟨?_, ?_, { parentObj with children := parentObj.children ++ [m.nextHandle] }, ?_, ?_⟩
    · rw [hr1, hr2]
    · rw [hr1, hr2]
    · rw [hr1, hr2]
      exact hF2
    · rw [if_pos hc]
      simp
  · -- the component already exists: both calls return it and mutate nothing
    have hr1 : scripting_util_require_component m objectHandle componentName =
        (surgescript_object_child m parentObj componentName, m) := by
      simp [scripting_util_require_component, hobj, hpar, hc]
    refine ⟨?_, ?_, parentObj, ?_, ?_⟩
    · simp only [hr1]
    · simp only [hr1]
    · simp only [hr1]
      exact hpar
    · rw [if_neg hc]
      rfl

/-- Witness for C5 on a concrete manager: requiring component "Foo" of the
object named "Player" twice spawns it once under the root and returns
handle 3 both times. -/
theorem require_component_idempotent_witness :
    mgrE.objects 2 = some ⟨"Player", 1, []⟩ ∧
    mgrE.objects (⟨"Player", 1, []⟩ : CObject).parent = some ⟨"Root", 1, [2]⟩ ∧
    mgrE.objects 0 = none ∧ mgrE.nextHandle ≠ 0 ∧
    (2 : Nat) ≠ mgrE.nextHandle ∧
    (⟨"Player", 1, []⟩ : CObject).parent ≠ mgrE.nextHandle ∧
    mgrE.nextHandle ∉ (⟨"Root", 1, [2]⟩ : CObject).children ∧
    ((scripting_util_require_component mgrE 2 "Foo").1 =
      (scripting_util_require_component
        (scripting_util_require_component mgrE 2 "Foo").2 2 "Foo").1 ∧
     (scripting_util_require_component
        (scripting_util_require_component mgrE 2 "Foo").2 2 "Foo").2 =
      (scripting_util_require_component mgrE 2 "Foo").2 ∧
     ∃ parentObj2,
       (scripting_util_require_component
          (scripting_util_require_component mgrE 2 "Foo").2 2 "Foo").2.objects
         (⟨"Player", 1, []⟩ : CObject).parent = some parentObj2 ∧
       parentObj2.children.length = (⟨"Root", 1, [2]⟩ : CObject).children.length +
         (if surgescript_object_child mgrE ⟨"Root", 1, [2]⟩ "Foo" = 0 then 1 else 0)) :=
  ⟨by decide, by decide, by decide, by decide, by decide, by decide, by decide,
   require_component_idempotent mgrE 2 "Foo" ⟨"Player", 1, []⟩ ⟨"Root", 1, [2]⟩
     (by decide) (by decide) (by decide) (by decide) (by decide) (by decide) (by decide)⟩

/- ===================== C6 ===================== -/

lemma compile_scripts_argv (sources : List (String × String)) (vm : VMData)
    (s : ScriptingState) : (compile_scripts sources vm s).2.vm_argv = s.vm_argv := by
  by_cases hf : found_test_script (vm.pool ++ sources) = true <;>
    simp [compile_scripts, hf]

/-- Claim C6: after all sources compile, a pool containing the reserved
entry point ("state:main" on "Application") sets the process-wide test-mode
flag and skips registering the default application entry; an absent entry
point registers the default application entry and clears test mode. -/
theorem compile_scripts_test_mode_detection
    (sources : List (String × String)) (vm : VMData) (s : ScriptingState) :
    ((vm.pool ++ sources).contains ("Application", "state:main") = true →
       (compile_scripts sources vm s).2.test_mode = true ∧
       (compile_scripts sources vm s).1.app_registered = vm.app_registered) ∧
    ((vm.pool ++ sources).contains ("Application", "state:main") = false →
       (compile_scripts sources vm s).2.test_mode = false ∧
       (compile_scripts sources vm s).1.app_registered = true) := by
  constructor <;> intro hfound
  · have h' : found_test_script (vm.pool ++ sources) = true := hfound
    simp [compile_scripts, h']
  · have h' : found_test_script (vm.pool ++ sources) = false := hfound
    simp [compile_scripts, h']

/-- Witness for C6: compiling a lone test script that defines
Application.state:main turns test mode on and leaves the default
application entry unregistered. -/
theorem compile_scripts_test_mode_detection_witness :
    (([] : List (String × String)) ++ [("Application", "state:main")]).contains
      ("Application", "state:main") = true ∧
    ((compile_scripts [("Application", "state:main")] ⟨[], true, false, 0⟩
        initialScriptingState).2.test_mode = true ∧
     (compile_scripts [("Application", "state:main")] ⟨[], true, false, 0⟩
        initialScriptingState).1.app_registered =
       (⟨[], true, false, 0⟩ : VMData).app_registered) :=
  ⟨by decide,
   (compile_scripts_test_mode_detection [("Application", "state:main")]
     ⟨[], true, false, 0⟩ initialScriptingState).1 (by decide)⟩

/- ===================== C7 ===================== -/

/-- Claim C7: a VM runtime version code below the declared minimum's code
terminates scripting_init fatally at the guard, before any session-level
state (VM, duplicated argument vector) is created; at or above the minimum
the guard passes and initialization yields a session with the duplicated
argument vector. -/
theorem scripting_init_version_guard
    (versioncode : String → Nat) (current_version : Nat)
    (argv : List String) (sources : List (String × String)) :
    (current_version < versioncode min_surgescript_version →
       scripting_init versioncode current_version argv sources =
         .error initialScriptingState ∧
       initialScriptingState.vm = none ∧ initialScriptingState.vm_argv = none) ∧
    (versioncode min_surgescript_version ≤ current_version →
       ∃ s, scripting_init versioncode current_version argv sources = .ok s ∧
         s.vm ≠ none ∧ s.vm_argv = some argv) := by
  constructor
  · intro hlt
    have hguard : check_if_compatible versioncode current_version = true := by
      simp [check_if_compatible, hlt]
    exact ⟨by simp [scripting_init, hguard], rfl, rfl⟩
  · intro hge
    have hguard : check_if_compatible versioncode current_version = false := by
      simp only [check_if_compatible, decide_eq_false_iff_not, not_lt]
      exact hge
    unfold scripting_init
    rw [hguard]
    simp only [Bool.false_eq_true, if_false]
    refine ⟨_, rfl, ?_, ?_⟩
    · simp
    · simp [compile_scripts_argv]

/-- Witness for C7: with every version string mapped to code 504, a runtime
reporting code 100 is rejected at the guard with the pristine state. -/
theorem scripting_init_version_guard_witness :
    100 < vcW min_surgescript_version ∧
    (scripting_init vcW 100 ["opensurge"] [] = .error initialScriptingState ∧
     initialScriptingState.vm = none ∧ initialScriptingState.vm_argv = none) :=
  ⟨by decide,
   (scripting_init_version_guard vcW 100 ["opensurge"] []).1 (by decide)⟩

/- ===================== C8 ===================== -/

/-- Claim C8: when the VM reset step of scripting_reload reports failure,
the reload aborts after logging: the builtins are not re-registered, nothing
is recompiled, the VM is not relaunched, and the duplicated argument vector
and the test-mode flag are exactly those of the pre-reload state; the only
changes are the reset collaborator's own effect on the session and the two
log lines. -/
theorem scripting_reload_failed_reset_atomic
    (reset : VMData → Bool × VMData) (sources : List (String × String))
    (s : ScriptingState) (vmdata vmAfter : VMData)
    (hvm : s.vm = some vmdata)
    (hfail : reset vmdata = (false, vmAfter)) :
    scripting_reload reset sources s =
      { s with vm := some vmAfter,
               log := s.log ++ ["Reloading scripts...", "Failed to reload the scripts"] } := by
  simp only [scripting_reload, hvm, hfail]
  simp [List.append_assoc]

/-- Witness state for C8: a live session mid-run. -/
def sW : ScriptingState :=
  ⟨some ⟨[("Application", "state:main")], true, true, 1⟩, some ["opensurge"], true, []⟩

/-- Witness reset collaborator for C8: a reset that always fails, leaving
the session as it found it. -/
def resetFailW : VMData → Bool × VMData := fun v => (false, v)

/-- Witness for C8: the failed reload of the concrete session changes only
the log. -/
theorem scripting_reload_failed_reset_atomic_witness :
    sW.vm = some ⟨[("Application", "state:main")], true, true, 1⟩ ∧
    resetFailW ⟨[("Application", "state:main")], true, true, 1⟩ =
      (false, ⟨[("Application", "state:main")], true, true, 1⟩) ∧
    scripting_reload resetFailW [] sW =
      { sW with vm := some ⟨[("Application", "state:main")], true, true, 1⟩,
                log := sW.log ++ ["Reloading scripts...", "Failed to reload the scripts"] } :=
  ⟨rfl, rfl,
   scripting_reload_failed_reset_atomic resetFailW [] sW
     ⟨[("Application", "state:main")], true, true, 1⟩
     ⟨[("Application", "state:main")], true, true, 1⟩ rfl rfl⟩

/- ===================== C9 ===================== -/

/-- Claim C9: every enumerated script source compiles with the
skip-duplicate-definitions flag exactly when the asset filesystem reports it
as non-primary, and the parser flags are restored to SSPARSER_DEFAULTS after
each file, so the relaxation never carries over (the flags each file
compiles under depend only on that file's primary bit, never on its
predecessors or on the initial parser state). -/
theorem compile_script_flags_per_file
    (files : List ScriptFile) (p : ParserState) :
    (compile_all files p).2 =
      files.map (fun f => ⟨f.path, ⟨!f.primary⟩⟩) ∧
    (compile_all files p).1.flags =
      (if files.isEmpty then p.flags else SSPARSER_DEFAULTS) := by
  induction files generalizing p with
  | nil => simp [compile_all]
  | cons f fs ih =>
    obtain ⟨ih1, ih2⟩ := ih ⟨SSPARSER_DEFAULTS⟩
    have hr1 : (compile_script f p).1 = ⟨SSPARSER_DEFAULTS⟩ := rfl
    have hev : (compile_script f p).2 = ⟨f.path, ⟨!f.primary⟩⟩ := by
      cases hfp : f.primary <;> simp [compile_script, hfp, SSPARSER_DEFAULTS]
    constructor
    · simp only [compile_all, hr1, hev, ih1, List.map_cons]
    · simp only [compile_all, hr1, ih2, List.isEmpty_cons, Bool.false_eq_true, if_false]
      split <;> rfl

/- ===================== C10 ===================== -/

/-- Claim C10 counterexample: the facade cache is NOT scoped to the current
session.  After a first lookup caches handle 5 and a reload installs a new
session whose SurgeEngine plugin resolves to handle 7, the first lookup
within the new session still returns the stale cached handle 5 instead of
performing the resolution (which would give 7). -/
theorem surgeengine_cache_cross_session_counterexample :
    (scripting_util_surgeengine_object
      { (scripting_util_surgeengine_object ⟨0, fun _ => 5⟩).2 with
        plugin := fun _ => 7 }).1 = 5 ∧
    ((fun _ => 7 : String → Nat) "SurgeEngine" = 7) ∧ (5 : Nat) ≠ 7 :=
  ⟨rfl, rfl, by decide⟩

/-- Claim C10 amended: the facade lookup resolves the plugin object once per
PROCESS, not once per session: whenever the function-local static cache is
nonzero the lookup returns the cached handle unchanged and performs no
resolution, even if the session (its plugin table) has been replaced by a
reload since the handle was cached; only a zero (never-set) cache triggers
the resolution, which then stores the resolved handle. -/
theorem surgeengine_cache_process_wide
    (s : EngineCache) (newPlugin : String → Nat)
    (hcached : s.cached_ref ≠ 0) :
    (scripting_util_surgeengine_object { s with plugin := newPlugin }).1 = s.cached_ref ∧
    (scripting_util_surgeengine_object { s with plugin := newPlugin }).2 =
      { s with plugin := newPlugin } ∧
    (scripting_util_surgeengine_object ⟨0, newPlugin⟩).1 = newPlugin "SurgeEngine" ∧
    (scripting_util_surgeengine_object ⟨0, newPlugin⟩).2.cached_ref =
      newPlugin "SurgeEngine" := by
  refine ⟨?_, ?_, rfl, rfl⟩ <;> simp [scripting_util_surgeengine_object, hcached]

/-- Witness for the amended C10: a cache holding handle 5 survives a plugin
table swap and keeps answering 5 without resolving. -/
theorem surgeengine_cache_process_wide_witness :
    ((⟨5, fun _ => 5⟩ : EngineCache).cached_ref ≠ 0) ∧
    ((scripting_util_surgeengine_object
        { (⟨5, fun _ => 5⟩ : EngineCache) with plugin := fun _ => 7 }).1 =
       (⟨5, fun _ => 5⟩ : EngineCache).cached_ref ∧
     (scripting_util_surgeengine_object
        { (⟨5, fun _ => 5⟩ : EngineCache) with plugin := fun _ => 7 }).2 =
       { (⟨5, fun _ => 5⟩ : EngineCache) with plugin := fun _ => 7 } ∧
     (scripting_util_surgeengine_object ⟨0, fun _ => 7⟩).1 =
       (fun _ => 7 : String → Nat) "SurgeEngine" ∧
     (scripting_util_surgeengine_object ⟨0, fun _ => 7⟩).2.cached_ref =
       (fun _ => 7 : String → Nat) "SurgeEngine") :=
  ⟨by decide, surgeengine_cache_process_wide ⟨5, fun _ => 5⟩ (fun _ => 7) (by decide)⟩
